import Mathlib

/-!
Verification of the shell-quoting engine and command-line assembly protocol
of the `theia` repository.

The definitions below are a shallow embedding of:
- `packages/process/src/common/shell-quoting.ts`
  (`ShellQuoting`, `ShellQuotedString`, `ShellQuotingFunctions`,
   `escapeForShell`, `createShellCommandLine`,
   `BashQuotingFunctions`, `CmdQuotingFunctions`, `PowershellQuotingFunctions`),
- `packages/debug/src/browser/run-in-terminal.ts` (`prepareCommandLine`),
- `packages/task/src/node/process/process-task-runner.ts`
  (the shell-dialect classification inside `getResolvedCommand`).

Strings are modelled as Lean `String`s; the JavaScript regex-replace
operations used by the source are modelled as explicit recursive functions
over `List Char` (`replaceChar` for a global single-character-class replace,
`replaceRuns` for a global replace of maximal runs of a character class,
`replacePair` for a global replace of a two-character pattern,
`replaceTrailing` for an end-anchored replace, and `escapeFirstNewline`
for the un-flagged, first-occurrence-only replace of `/\r?\n/`).
-/

/-- Named characters, to keep the character-level definitions readable. -/
def bslash : Char := Char.ofNat 92

/-- The double-quote character. -/
def dquote : Char := Char.ofNat 34

/-- The single-quote character. -/
def squote : Char := Char.ofNat 39

/-- The backtick character, Powershell's escape character. -/
def btick : Char := Char.ofNat 96

/-- The caret character, Cmd's escape character. -/
def caret : Char := Char.ofNat 94

/-- The question-mark character. -/
def qmark : Char := Char.ofNat 63

/-- The percent character. -/
def percent : Char := Char.ofNat 37

/-- The line-feed character. -/
def nlChar : Char := Char.ofNat 10

/-- The carriage-return character. -/
def crChar : Char := Char.ofNat 13

/-- Code points matched by the JavaScript regex class `\s`. -/
def jsSpaceNat (n : Nat) : Bool :=
  n = 32 || n = 9 || n = 10 || n = 11 || n = 12 || n = 13 ||
  n = 160 || n = 5760 || (8192 ≤ n && n ≤ 8202) ||
  n = 8232 || n = 8233 || n = 8239 || n = 8287 || n = 12288 || n = 65279

/-- Characters matched by the JavaScript regex class `\s`. -/
def isJsSpace (c : Char) : Bool := jsSpaceNat c.toNat

/-- Code points of the Bash escape metacharacter class `[\s\\|(){}<>$&;"']`:
backslash 92, pipe 124, parens 40 41, braces 123 125, angle brackets 60 62,
dollar 36, ampersand 38, semicolon 59, double quote 34, single quote 39. -/
def bashMetaNat (n : Nat) : Bool :=
  jsSpaceNat n || n = 92 || n = 124 || n = 40 || n = 41 || n = 123 || n = 125 ||
  n = 60 || n = 62 || n = 36 || n = 38 || n = 59 || n = 34 || n = 39

/-- Characters matched by the Bash `escape` metacharacter class. -/
def bashMeta (c : Char) : Bool := bashMetaNat c.toNat

/-- Code points of the Cmd escape metacharacter class `[%&\<>^|"]`:
percent 37, ampersand 38, backslash 92, angle brackets 60 62, caret 94,
pipe 124, double quote 34. -/
def cmdMetaNat (n : Nat) : Bool :=
  n = 37 || n = 38 || n = 92 || n = 60 || n = 62 || n = 94 || n = 124 || n = 34

/-- Characters matched by the Cmd `escape` metacharacter class. -/
def cmdMeta (c : Char) : Bool := cmdMetaNat c.toNat

/-- Code points of the Powershell escape metacharacter class ``[`|{}()<>;"' ]``:
backtick 96, pipe 124, braces 123 125, parens 40 41, angle brackets 60 62,
semicolon 59, double quote 34, single quote 39, space 32. -/
def psMetaNat (n : Nat) : Bool :=
  n = 96 || n = 124 || n = 123 || n = 125 || n = 40 || n = 41 ||
  n = 60 || n = 62 || n = 59 || n = 34 || n = 39 || n = 32

/-- Characters matched by the Powershell `escape` metacharacter class. -/
def psMeta (c : Char) : Bool := psMetaNat c.toNat

/-- Model of a JavaScript global regex replace whose pattern is a single
character class: every character satisfying `p` is replaced by `f c`. -/
def replaceChar (p : Char → Bool) (f : Char → List Char) : List Char → List Char
  | [] => []
  | c :: cs => (if p c then f c else [c]) ++ replaceChar p f cs

/-- Worker for `replaceRuns`; `run` accumulates the current maximal run
(in reverse order). -/
def replaceRunsGo (p : Char → Bool) (wrap : List Char → List Char)
    (run : List Char) : List Char → List Char
  | [] => if run.isEmpty then [] else wrap run.reverse
  | c :: cs =>
    if p c then replaceRunsGo p wrap (c :: run) cs
    else (if run.isEmpty then [] else wrap run.reverse) ++ c :: replaceRunsGo p wrap [] cs

/-- Model of a JavaScript global regex replace whose pattern is `X+` for a
character class `X`: every maximal nonempty run of characters satisfying `p`
is replaced by `wrap run`. -/
def replaceRuns (p : Char → Bool) (wrap : List Char → List Char) (l : List Char) : List Char :=
  replaceRunsGo p wrap [] l

/-- Model of a JavaScript global regex replace whose pattern is the fixed
two-character sequence `a b`: matches are found left to right and do not
overlap. -/
def replacePair (a b : Char) (rep : List Char) : List Char → List Char
  | [] => []
  | [c] => [c]
  | c :: d :: cs =>
    if c = a ∧ d = b then rep ++ replacePair a b rep cs
    else c :: replacePair a b rep (d :: cs)

/-- Model of a JavaScript end-anchored regex replace `/a$/`: when the last
character is `a` it is replaced by `rep`. -/
def replaceTrailing (a : Char) (rep : List Char) (l : List Char) : List Char :=
  if l.getLast? = some a then l.dropLast ++ rep else l

/-- Model of the un-flagged JavaScript replace `.replace(/\r?\n/, '^$&')`:
only the first line break (`\r\n` or a bare `\n`) is prefixed with a caret. -/
def escapeFirstNewline : List Char → List Char
  | [] => []
  | c :: cs =>
    if c = crChar then
      match cs with
      | d :: rest => if d = nlChar then caret :: c :: d :: rest
                     else c :: escapeFirstNewline (d :: rest)
      | [] => [c]
    else if c = nlChar then caret :: c :: cs
    else c :: escapeFirstNewline cs

/-- Bash `escape`: prefix every character of the class `[\s\\|(){}<>$&;"']`
with a backslash (source: `BashQuotingFunctions.escape`). -/
def BashQuotingFunctions.escape (arg : String) : String :=
  String.mk (replaceChar bashMeta (fun c => [bslash, c]) arg.data)

/-- Bash `strong`: wrap in single quotes; every maximal run of single quotes
becomes `'"` run `"'` (source: `BashQuotingFunctions.strong`,
replacement `'"$&"'`). -/
def BashQuotingFunctions.strong (arg : String) : String :=
  String.mk (squote ::
    replaceRuns (fun c => c = squote)
      (fun run => squote :: dquote :: (run ++ [dquote, squote])) arg.data
    ++ [squote])

/-- Bash `weak`: wrap in double quotes after escaping `\"` to `\\"`, then `"`
to `\"`, then doubling a trailing backslash
(source: `BashQuotingFunctions.weak`). -/
def BashQuotingFunctions.weak (arg : String) : String :=
  String.mk (dquote ::
    replaceTrailing bslash [bslash, bslash]
      (replaceChar (fun c => c = dquote) (fun _ => [bslash, dquote])
        (replacePair bslash dquote [bslash, bslash, dquote] arg.data))
    ++ [dquote])

/-- Cmd `escape`: prefix every character of `[%&\<>^|"]` with a caret, then
wrap every maximal whitespace run in double quotes
(source: `CmdQuotingFunctions.escape`). -/
def CmdQuotingFunctions.escape (arg : String) : String :=
  String.mk (replaceRuns isJsSpace (fun run => dquote :: run ++ [dquote])
    (replaceChar cmdMeta (fun c => [caret, c]) arg.data))

/-- Cmd `weak`: escape `"` to `\"`, rewrite a trailing backslash to a single
backslash (the source's `.replace(/\\$/g, '\\')`, which leaves it unchanged),
wrap in double quotes, then caret-prefix only the first line break (the
source's un-flagged `.replace(/\r?\n/, '^$&')`, next to a `TODO: Fix` mark)
(source: `CmdQuotingFunctions.weak`). -/
def CmdQuotingFunctions.weak (arg : String) : String :=
  String.mk (escapeFirstNewline (dquote ::
    replaceTrailing bslash [bslash]
      (replaceChar (fun c => c = dquote) (fun _ => [bslash, dquote]) arg.data)
    ++ [dquote]))

/-- Cmd `strong`: `weak` with every percent additionally wrapped as `"%"`
(source: `CmdQuotingFunctions.strong`). -/
def CmdQuotingFunctions.strong (arg : String) : String :=
  String.mk (replaceChar (fun c => c = percent) (fun c => [dquote, c, dquote])
    (CmdQuotingFunctions.weak arg).data)

/-- Powershell `escape`: prefix every character of ``[`|{}()<>;"' ]`` with a
backtick (source: `PowershellQuotingFunctions.escape`). -/
def PowershellQuotingFunctions.escape (arg : String) : String :=
  String.mk (replaceChar psMeta (fun c => [btick, c]) arg.data)

/-- Powershell `strong`: wrap in single quotes; every single quote is doubled
(source: `PowershellQuotingFunctions.strong`). -/
def PowershellQuotingFunctions.strong (arg : String) : String :=
  String.mk (squote ::
    replaceChar (fun c => c = squote) (fun _ => [squote, squote]) arg.data
    ++ [squote])

/-- Powershell `weak`: wrap in double quotes after escaping a backtick-quote
pair to backtick-backtick-quote, then `"` to backtick-quote, then doubling a
trailing backtick
(source: `PowershellQuotingFunctions.weak`). -/
def PowershellQuotingFunctions.weak (arg : String) : String :=
  String.mk (dquote ::
    replaceTrailing btick [btick, btick]
      (replaceChar (fun c => c = dquote) (fun _ => [btick, dquote])
        (replacePair btick dquote [btick, btick, dquote] arg.data))
    ++ [dquote])

/-- The `ShellQuoting` modes of `shell-quoting.ts`. -/
inductive ShellQuoting
  | escape
  | strong
  | weak
deriving DecidableEq

/-- A string together with the quoting style to use (`ShellQuotedString`). -/
structure ShellQuotedString where
  value : String
  quoting : ShellQuoting
deriving DecidableEq

/-- The `ShellQuotingFunctions` interface: each of the three quoting modes may
or may not have a function. -/
structure ShellQuotingFunctions where
  escape : Option (String → String)
  strong : Option (String → String)
  weak : Option (String → String)

/-- The quoter record with no functions at all (`{}` in the source). -/
def emptyQuotingFunctions : ShellQuotingFunctions := ⟨none, none, none⟩

/-- Indexing `options[quotationStyle]` on a `ShellQuotingFunctions` record. -/
def quotingFunctionFor (options : ShellQuotingFunctions) : ShellQuoting → Option (String → String)
  | ShellQuoting.escape => options.escape
  | ShellQuoting.strong => options.strong
  | ShellQuoting.weak => options.weak

/-- An argument of `escapeForShell`: either a plain string or a
`ShellQuotedString` (`string | ShellQuotedString` in the source). -/
def ShellArg : Type := String ⊕ ShellQuotedString

/-- Source `escapeForShell`: a plain string defaults to strong quoting; if the
record has no function for the requested style the value is returned
unmodified. -/
def escapeForShell (arg : ShellArg) (options : ShellQuotingFunctions) : String :=
  let qv : ShellQuoting × String :=
    match arg with
    | Sum.inl s => (ShellQuoting.strong, s)
    | Sum.inr a => (a.quoting, a.value)
  match quotingFunctionFor options qv.1 with
  | some f => f qv.2
  | none => qv.2

/-- Source `createShellCommandLine`: quote each argument and join them with a
single space. -/
def createShellCommandLine (args : List ShellArg) (options : ShellQuotingFunctions) : String :=
  String.intercalate " " (args.map (fun arg => escapeForShell arg options))

/-- The exported `BashQuotingFunctions` record. -/
def BashQuotingFunctionsRecord : ShellQuotingFunctions :=
  ⟨some BashQuotingFunctions.escape, some BashQuotingFunctions.strong,
   some BashQuotingFunctions.weak⟩

/-- The exported `CmdQuotingFunctions` record. -/
def CmdQuotingFunctionsRecord : ShellQuotingFunctions :=
  ⟨some CmdQuotingFunctions.escape, some CmdQuotingFunctions.strong,
   some CmdQuotingFunctions.weak⟩

/-- The exported `PowershellQuotingFunctions` record. -/
def PowershellQuotingFunctionsRecord : ShellQuotingFunctions :=
  ⟨some PowershellQuotingFunctions.escape, some PowershellQuotingFunctions.strong,
   some PowershellQuotingFunctions.weak⟩

/-- Boolean list-prefix test. -/
def startsWithL : List Char → List Char → Bool
  | [], _ => true
  | _ :: _, [] => false
  | p :: ps, c :: cs => p = c && startsWithL ps cs

/-- Boolean substring-occurrence test (an unanchored regex `.test`). -/
def containsL (pat : List Char) : List Char → Bool
  | [] => pat.isEmpty
  | c :: cs => startsWithL pat (c :: cs) || containsL pat cs

/-- ASCII lowercasing of a string's characters, the semantics of matching an
ASCII pattern with the JavaScript `i` regex flag. -/
def lowerData (s : String) : List Char := s.data.map Char.toLower

/-- Characters matched by the JavaScript regex `.` without the `s` flag: any
character except the line terminators LF (10), CR (13), LINE SEPARATOR
(8232) and PARAGRAPH SEPARATOR (8233). -/
def isRegexDot (c : Char) : Bool :=
  !(c.toNat = 10 || c.toNat = 13 || c.toNat = 8232 || c.toNat = 8233)

/-- Matching a fixed-shape regex fragment against the front of a list: a
`some a` slot requires the character `a` itself, a `none` slot is the regex
wildcard `.` (any non-line-terminator character). -/
def matchesPat : List (Option Char) → List Char → Bool
  | [], _ => true
  | _ :: _, [] => false
  | p :: ps, c :: cs =>
    (match p with
     | some a => decide (a = c)
     | none => isRegexDot c) && matchesPat ps cs

/-- A pattern made only of literal slots. -/
def litPat (l : List Char) : List (Option Char) := l.map some

/-- The end-anchored test `/lit(.exe)?$/` on a reversed subject `r`: either
`lit` alone is a suffix, or `lit`, then any non-line-terminator character
(the regex wildcard `.`), then `exe` is a suffix. Reversed, the second case
starts with `e`, `x`, `e`, the wildcard, then the reversed literal. -/
def optDotExe (lit : List Char) (r : List Char) : Bool :=
  matchesPat (litPat lit.reverse) r ||
  matchesPat (some 'e' :: some 'x' :: some 'e' :: none :: litPat lit.reverse) r

/-- Compatibility of two patterns: wherever both have a literal slot, the
literals agree (up to the shorter pattern's length). Two patterns that both
match the front of the same list are compatible. -/
def compatPats : List (Option Char) → List (Option Char) → Bool
  | [], _ => true
  | _ :: _, [] => true
  | p :: ps, q :: qs =>
    (match p, q with
     | some a, some b => decide (a = b)
     | _, _ => true) && compatPats ps qs

/-- The test `/bash(.exe)?$/.test(executable)` (case-sensitive): the subject
ends in `bash`, or in `bash` followed by any non-line-terminator character
and `exe`. -/
def testBash (s : String) : Bool := optDotExe "bash".data s.data.reverse

/-- The test `/(ps|pwsh|powershell)(.exe)?$/i.test(executable)`: matched
against the ASCII-lowered subject (`Char.toLower` fixes every line
terminator and maps none into that set, so checking the wildcard on the
lowered character is equivalent). -/
def testPowershellCI (s : String) : Bool :=
  optDotExe "ps".data ((lowerData s).reverse) ||
  optDotExe "pwsh".data ((lowerData s).reverse) ||
  optDotExe "powershell".data ((lowerData s).reverse)

/-- The test `/cmd(.exe)?$/i.test(executable)`. -/
def testCmdCI (s : String) : Bool :=
  optDotExe "cmd".data ((lowerData s).reverse)

/-- The test `/cmd(.exe)?$/.test(command)` used by the task runner
(case-sensitive: no `i` flag there). -/
def testCmdCS (s : String) : Bool := optDotExe "cmd".data s.data.reverse

/-- The test `/(ps|pwsh|powershell)(.exe)?/.test(command)` used by the task
runner: unanchored and case-sensitive, so it just asks whether one of the
three alternatives occurs anywhere in the string. -/
def testPsSub (s : String) : Bool :=
  containsL "ps".data s.data || containsL "pwsh".data s.data ||
  containsL "powershell".data s.data

/-- The shell dialects distinguished by `prepareCommandLine`. -/
inductive Dialect
  | bash
  | powershell
  | cmd
  | unknown
deriving DecidableEq

/-- The dialect-detection chain of `prepareCommandLine`: the bash test, then
the case-insensitive powershell test, then the case-insensitive cmd test. -/
def builderDialect (executable : String) : Dialect :=
  if testBash executable then Dialect.bash
  else if testPowershellCI executable then Dialect.powershell
  else if testCmdCI executable then Dialect.cmd
  else Dialect.unknown

/-- The shell classifications made inside the task runner's
`getResolvedCommand` (identified by which quoting record gets selected). -/
inductive TaskDialect
  | bash
  | cmd
  | powershell
  | unknown
deriving DecidableEq

/-- The dialect-detection chain of `getResolvedCommand` in
`process-task-runner.ts`: `/bash(.exe)?$/`, then the case-sensitive
`/cmd(.exe)?$/`, then the unanchored case-sensitive
`/(ps|pwsh|powershell)(.exe)?/`; anything else keeps the empty quoting
record. -/
def taskRunnerShellDialect (command : String) : TaskDialect :=
  if testBash command then TaskDialect.bash
  else if testCmdCS command then TaskDialect.cmd
  else if testPsSub command then TaskDialect.powershell
  else TaskDialect.unknown

/-- The `CommandLineOptions` of `run-in-terminal.ts`; the environment patch is
an insertion-ordered list of name/value entries, a `none` value meaning the
JavaScript `null` (unset this variable). -/
structure CommandLineOptions where
  cwd : String
  args : List String
  env : Option (List (String × Option String))

/-- One iteration of the bash environment loop of `prepareCommandLine`. -/
def bashEnvEntry (kv : String × Option String) : String :=
  match kv.2 with
  | none => " -u " ++ BashQuotingFunctions.strong kv.1
  | some v => " " ++ BashQuotingFunctions.strong (kv.1 ++ "=" ++ v)

/-- The bash branch of `prepareCommandLine`. -/
def bashCommand (cwd : String) (args : List String)
    (env : Option (List (String × Option String))) : String :=
  (if cwd ≠ "" then "cd " ++ BashQuotingFunctions.strong cwd ++ " && " else "") ++
  (match env with
   | some entries => "env" ++ String.join (entries.map bashEnvEntry) ++ " "
   | none => "") ++
  createShellCommandLine
    (args.map (fun value => Sum.inr ⟨value, ShellQuoting.strong⟩))
    BashQuotingFunctionsRecord

/-- The quoting applied to an environment-variable name before interpolation
into a Powershell brace expansion: each backtick is replaced by four
backticks, then each question mark by two backticks and a question mark. -/
def powershellQuoteKey (key : String) : String :=
  String.mk (replaceChar (fun c => c = qmark) (fun _ => [btick, btick, qmark])
    (replaceChar (fun c => c = btick) (fun _ => [btick, btick, btick, btick]) key.data))

/-- One iteration of the powershell environment loop of
`prepareCommandLine`. -/
def psEnvEntry (kv : String × Option String) : String :=
  match kv.2 with
  | none => "Remove-Item $\x7benv:" ++ powershellQuoteKey kv.1 ++ "\x7d; "
  | some v =>
    "$\x7benv:" ++ powershellQuoteKey kv.1 ++ "\x7d=" ++
    PowershellQuotingFunctions.strong v ++ "; "

/-- The powershell branch of `prepareCommandLine`. -/
def psCommand (cwd : String) (args : List String)
    (env : Option (List (String × Option String))) : String :=
  (if cwd ≠ "" then "cd " ++ PowershellQuotingFunctions.strong cwd ++ "; " else "") ++
  (match env with
   | some entries => String.join (entries.map psEnvEntry)
   | none => "") ++
  "& " ++
  createShellCommandLine
    (args.map (fun value => Sum.inr ⟨value, ShellQuoting.strong⟩))
    PowershellQuotingFunctionsRecord

/-- One iteration of the cmd environment loop of `prepareCommandLine`: note
that for a `null` value the source strong-quotes the whole clause
`set key="" && `, while for a set variable only `key=value` is
strong-quoted. -/
def cmdEnvEntry (kv : String × Option String) : String :=
  match kv.2 with
  | none =>
    CmdQuotingFunctions.strong ("set " ++ kv.1 ++ "=" ++ String.mk [dquote, dquote] ++ " && ")
  | some v => "set " ++ CmdQuotingFunctions.strong (kv.1 ++ "=" ++ v) ++ " && "

/-- The cmd branch of `prepareCommandLine`: when an environment patch object
is present (even an empty one) the environment clauses and the invocation are
wrapped in `cmd /C "` ... `"`. -/
def cmdCommand (cwd : String) (args : List String)
    (env : Option (List (String × Option String))) : String :=
  (if cwd ≠ "" then "cd " ++ CmdQuotingFunctions.strong cwd ++ " && " else "") ++
  (match env with
   | some entries => "cmd /C " ++ String.mk [dquote] ++ String.join (entries.map cmdEnvEntry)
   | none => "") ++
  createShellCommandLine
    (args.map (fun value => Sum.inr ⟨value, ShellQuoting.strong⟩))
    CmdQuotingFunctionsRecord ++
  (match env with
   | some _ => String.mk [dquote]
   | none => "")

/-- Source `prepareCommandLine` of `run-in-terminal.ts`. The first component
is the returned command line; the second counts the `console.warn` calls made
(the unknown-shell warning). `processInfo` is modelled by the executable it
carries, `none` standing for an undefined `processInfo`; an empty executable
string is falsy in the source and also takes the fallback path. -/
def prepareCommandLine (processInfo : Option String) (options : CommandLineOptions) :
    String × Nat :=
  match processInfo with
  | some executable =>
    if executable = "" then (String.intercalate " " options.args, 1)
    else
      match builderDialect executable with
      | Dialect.bash => (bashCommand options.cwd options.args options.env, 0)
      | Dialect.powershell => (psCommand options.cwd options.args options.env, 0)
      | Dialect.cmd => (cmdCommand options.cwd options.args options.env, 0)
      | Dialect.unknown => (String.intercalate " " options.args, 1)
  | none => (String.intercalate " " options.args, 1)

/-- Code points matched by `[A-Za-z0-9]`: digits 48-57, uppercase 65-90,
lowercase 97-122. -/
def alnumNat (n : Nat) : Bool :=
  (48 ≤ n && n ≤ 57) || (65 ≤ n && n ≤ 90) || (97 ≤ n && n ≤ 122)

/-- ASCII alphanumeric characters (the class `[A-Za-z0-9]`). -/
def isAlnum (c : Char) : Bool := alnumNat c.toNat

/-- Per-character rendering of the Powershell environment-variable-name
quoting: a backtick becomes four backticks, a question mark becomes two
backticks and a question mark, anything else is kept. -/
def psKeyCharRender (c : Char) : List Char :=
  if c = btick then [btick, btick, btick, btick]
  else if c = qmark then [btick, btick, qmark]
  else [c]

/-- The per-character rendering extended to a whole variable name. -/
def psKeyRender : List Char → List Char
  | [] => []
  | c :: cs => psKeyCharRender c ++ psKeyRender cs

/-- The argument list of `prepareCommandLine` after wrapping every argument
as a strongly-quoted `ShellQuotedString`. -/
def strongArgs (args : List String) : List ShellArg :=
  args.map (fun value => Sum.inr ⟨value, ShellQuoting.strong⟩)

/-- A character-class replace distributes over list concatenation. -/
theorem replaceChar_append (p : Char → Bool) (f : Char → List Char) :
    ∀ (l₁ l₂ : List Char),
      replaceChar p f (l₁ ++ l₂) = replaceChar p f l₁ ++ replaceChar p f l₂
  | [], _ => rfl
  | c :: cs, l₂ => by
    simp [replaceChar, replaceChar_append p f cs l₂]

/-- A character-class replace is the identity when no character matches. -/
theorem replaceChar_id (p : Char → Bool) (f : Char → List Char) :
    ∀ (l : List Char), (∀ c ∈ l, p c = false) → replaceChar p f l = l
  | [], _ => rfl
  | c :: cs, h => by
    have hc : p c = false := h c (by simp)
    have ih := replaceChar_id p f cs (fun x hx => h x (List.mem_cons_of_mem c hx))
    simp [replaceChar, hc, ih]

/-- A run replace is the identity when no character matches. -/
theorem replaceRunsGo_nil_id (p : Char → Bool) (wrap : List Char → List Char) :
    ∀ (l : List Char), (∀ c ∈ l, p c = false) → replaceRunsGo p wrap [] l = l
  | [], _ => rfl
  | c :: cs, h => by
    have hc : p c = false := h c (by simp)
    have ih := replaceRunsGo_nil_id p wrap cs (fun x hx => h x (List.mem_cons_of_mem c hx))
    simp [replaceRunsGo, hc, ih]

/-- A run replace is the identity when no character matches. -/
theorem replaceRuns_id (p : Char → Bool) (wrap : List Char → List Char)
    (l : List Char) (h : ∀ c ∈ l, p c = false) : replaceRuns p wrap l = l :=
  replaceRunsGo_nil_id p wrap l h

/-- A two-character-pattern replace is the identity when the second pattern
character never occurs. -/
theorem replacePair_id (a b : Char) (rep : List Char) :
    ∀ (l : List Char), (∀ c ∈ l, c ≠ b) → replacePair a b rep l = l
  | [], _ => rfl
  | [c], _ => rfl
  | c :: d :: cs, h => by
    have hd : ¬(c = a ∧ d = b) := fun hcd => h d (by simp) hcd.2
    have ih := replacePair_id a b rep (d :: cs)
      (fun x hx => h x (List.mem_cons_of_mem c hx))
    simp [replacePair, hd, ih]

/-- An end-anchored replace is the identity when the anchor character never
occurs. -/
theorem replaceTrailing_id (a : Char) (rep : List Char) (l : List Char)
    (h : ∀ c ∈ l, c ≠ a) : replaceTrailing a rep l = l := by
  unfold replaceTrailing
  cases hl : l.getLast? with
  | none => simp
  | some x =>
    have hx : x ∈ l := by
      obtain ⟨hne, hxe⟩ := List.mem_getLast?_eq_getLast (l := l) (x := x)
        (Option.mem_def.2 hl)
      rw [hxe]
      exact List.getLast_mem hne
    simp [h x hx]

/-- The first-line-break replace is the identity when no line feed occurs. -/
theorem escapeFirstNewline_id :
    ∀ (l : List Char), (∀ c ∈ l, c ≠ nlChar) → escapeFirstNewline l = l
  | [], _ => rfl
  | c :: cs, h => by
    have hc : c ≠ nlChar := h c (by simp)
    cases cs with
    | nil => by_cases hcr : c = crChar <;> simp [escapeFirstNewline, hcr, hc]
    | cons d rest =>
      have hd : d ≠ nlChar := h d (by simp)
      have ih := escapeFirstNewline_id (d :: rest)
        (fun x hx => h x (List.mem_cons_of_mem c hx))
      by_cases hcr : c = crChar <;> simp [escapeFirstNewline, hcr, hc, hd, ih]

/-- Every consequence of being an ASCII alphanumeric character that the
quoting functions depend on: no metacharacter class matches and none of the
individually significant characters is hit. -/
theorem alnum_char_facts (c : Char) (h : isAlnum c = true) :
    bashMeta c = false ∧ cmdMeta c = false ∧ psMeta c = false ∧
    isJsSpace c = false ∧
    c ≠ squote ∧ c ≠ dquote ∧ c ≠ btick ∧ c ≠ qmark ∧ c ≠ percent ∧
    c ≠ nlChar ∧ c ≠ bslash := by
  have hn : (48 ≤ c.toNat ∧ c.toNat ≤ 57) ∨ (65 ≤ c.toNat ∧ c.toNat ≤ 90) ∨
      (97 ≤ c.toNat ∧ c.toNat ≤ 122) := by
    simpa [isAlnum, alnumNat, or_assoc] using h
  refine ⟨?_, ?_, ?_, ?_, ?_, ?_, ?_, ?_, ?_, ?_, ?_⟩
  · rw [Bool.eq_false_iff]
    intro ht
    simp [bashMeta, bashMetaNat, jsSpaceNat] at ht
    omega
  · rw [Bool.eq_false_iff]
    intro ht
    simp [cmdMeta, cmdMetaNat] at ht
    omega
  · rw [Bool.eq_false_iff]
    intro ht
    simp [psMeta, psMetaNat] at ht
    omega
  · rw [Bool.eq_false_iff]
    intro ht
    simp [isJsSpace, jsSpaceNat] at ht
    omega
  · intro he; subst he; exact absurd h (by decide)
  · intro he; subst he; exact absurd h (by decide)
  · intro he; subst he; exact absurd h (by decide)
  · intro he; subst he; exact absurd h (by decide)
  · intro he; subst he; exact absurd h (by decide)
  · intro he; subst he; exact absurd h (by decide)
  · intro he; subst he; exact absurd h (by decide)

/-- C2: on strings made only of ASCII alphanumerics, `escape` is the identity
for all three dialects, `strong` wraps the string exactly in the dialect's
strong delimiter pair (single quotes for Bash and Powershell, double quotes
for Cmd), and `weak` wraps it exactly in double quotes. -/
theorem spec_C2 (s : String) (h : ∀ c ∈ s.data, isAlnum c = true) :
    BashQuotingFunctions.escape s = s ∧
    CmdQuotingFunctions.escape s = s ∧
    PowershellQuotingFunctions.escape s = s ∧
    BashQuotingFunctions.strong s = String.mk (squote :: s.data ++ [squote]) ∧
    PowershellQuotingFunctions.strong s = String.mk (squote :: s.data ++ [squote]) ∧
    CmdQuotingFunctions.strong s = String.mk (dquote :: s.data ++ [dquote]) ∧
    BashQuotingFunctions.weak s = String.mk (dquote :: s.data ++ [dquote]) ∧
    CmdQuotingFunctions.weak s = String.mk (dquote :: s.data ++ [dquote]) ∧
    PowershellQuotingFunctions.weak s = String.mk (dquote :: s.data ++ [dquote]) := by
  have hf := fun c hc => alnum_char_facts c (h c hc)
  have hbm : ∀ c ∈ s.data, bashMeta c = false := fun c hc => (hf c hc).1
  have hcm : ∀ c ∈ s.data, cmdMeta c = false := fun c hc => (hf c hc).2.1
  have hpm : ∀ c ∈ s.data, psMeta c = false := fun c hc => (hf c hc).2.2.1
  have hsp : ∀ c ∈ s.data, isJsSpace c = false := fun c hc => (hf c hc).2.2.2.1
  have hsq : ∀ c ∈ s.data, c ≠ squote := fun c hc => (hf c hc).2.2.2.2.1
  have hdq : ∀ c ∈ s.data, c ≠ dquote := fun c hc => (hf c hc).2.2.2.2.2.1
  have hbt : ∀ c ∈ s.data, c ≠ btick := fun c hc => (hf c hc).2.2.2.2.2.2.1
  have hpc : ∀ c ∈ s.data, c ≠ percent := fun c hc => (hf c hc).2.2.2.2.2.2.2.2.1
  have hnl : ∀ c ∈ s.data, c ≠ nlChar := fun c hc => (hf c hc).2.2.2.2.2.2.2.2.2.1
  have hbs : ∀ c ∈ s.data, c ≠ bslash := fun c hc => (hf c hc).2.2.2.2.2.2.2.2.2.2
  have hsqb : ∀ c ∈ s.data, decide (c = squote) = false :=
    fun c hc => decide_eq_false (hsq c hc)
  have hdqb : ∀ c ∈ s.data, decide (c = dquote) = false :=
    fun c hc => decide_eq_false (hdq c hc)
  have hpcb : ∀ c ∈ s.data, decide (c = percent) = false :=
    fun c hc => decide_eq_false (hpc c hc)
  have hwnl : ∀ c ∈ dquote :: s.data ++ [dquote], c ≠ nlChar := by
    intro c hc
    rcases List.mem_cons.1 hc with hc | hc
    · subst hc; decide
    rcases List.mem_append.1 hc with hc | hc
    · exact hnl c hc
    · rw [List.mem_singleton.1 hc]; decide
  have ebash : BashQuotingFunctions.escape s = s := by
    unfold BashQuotingFunctions.escape
    rw [replaceChar_id _ _ _ hbm]
  have ecmd : CmdQuotingFunctions.escape s = s := by
    unfold CmdQuotingFunctions.escape
    rw [replaceChar_id _ _ _ hcm, replaceRuns_id _ _ _ hsp]
  have eps : PowershellQuotingFunctions.escape s = s := by
    unfold PowershellQuotingFunctions.escape
    rw [replaceChar_id _ _ _ hpm]
  have sbash : BashQuotingFunctions.strong s =
      String.mk (squote :: s.data ++ [squote]) := by
    unfold BashQuotingFunctions.strong
    rw [replaceRuns_id _ _ _ hsqb]
  have sps : PowershellQuotingFunctions.strong s =
      String.mk (squote :: s.data ++ [squote]) := by
    unfold PowershellQuotingFunctions.strong
    rw [replaceChar_id _ _ _ hsqb]
  have wbash : BashQuotingFunctions.weak s =
      String.mk (dquote :: s.data ++ [dquote]) := by
    unfold BashQuotingFunctions.weak
    rw [replacePair_id _ _ _ _ hdq, replaceChar_id _ _ _ hdqb,
      replaceTrailing_id _ _ _ hbs]
  have wcmd : CmdQuotingFunctions.weak s =
      String.mk (dquote :: s.data ++ [dquote]) := by
    unfold CmdQuotingFunctions.weak
    rw [replaceChar_id _ _ _ hdqb, replaceTrailing_id _ _ _ hbs,
      escapeFirstNewline_id _ hwnl]
  have scmd : CmdQuotingFunctions.strong s =
      String.mk (dquote :: s.data ++ [dquote]) := by
    unfold CmdQuotingFunctions.strong
    rw [wcmd]
    have hq : ∀ c ∈ dquote :: s.data ++ [dquote], decide (c = percent) = false := by
      intro c hc
      rcases List.mem_cons.1 hc with hc | hc
      · subst hc; decide
      rcases List.mem_append.1 hc with hc | hc
      · exact hpcb c hc
      · rw [List.mem_singleton.1 hc]; decide
    rw [replaceChar_id _ _ _ hq]
  have wps : PowershellQuotingFunctions.weak s =
      String.mk (dquote :: s.data ++ [dquote]) := by
    unfold PowershellQuotingFunctions.weak
    rw [replacePair_id _ _ _ _ hdq, replaceChar_id _ _ _ hdqb,
      replaceTrailing_id _ _ _ hbt]
  exact ⟨ebash, ecmd, eps, sbash, sps, scmd, wbash, wcmd, wps⟩

/-- Witness for C2, at the concrete alphanumeric string `Az09`. -/
theorem spec_C2_witness :
    (∀ c ∈ "Az09".data, isAlnum c = true) ∧
    (BashQuotingFunctions.escape "Az09" = "Az09" ∧
     CmdQuotingFunctions.escape "Az09" = "Az09" ∧
     PowershellQuotingFunctions.escape "Az09" = "Az09" ∧
     BashQuotingFunctions.strong "Az09" = String.mk (squote :: "Az09".data ++ [squote]) ∧
     PowershellQuotingFunctions.strong "Az09" = String.mk (squote :: "Az09".data ++ [squote]) ∧
     CmdQuotingFunctions.strong "Az09" = String.mk (dquote :: "Az09".data ++ [dquote]) ∧
     BashQuotingFunctions.weak "Az09" = String.mk (dquote :: "Az09".data ++ [dquote]) ∧
     CmdQuotingFunctions.weak "Az09" = String.mk (dquote :: "Az09".data ++ [dquote]) ∧
     PowershellQuotingFunctions.weak "Az09" = String.mk (dquote :: "Az09".data ++ [dquote])) :=
  ⟨by decide, spec_C2 "Az09" (by decide)⟩

/-- C4: evaluation at the failing input `a\`. The Cmd `weak` quoter leaves a
trailing backslash single (its `.replace(/\\$/g, '\\')` is the identity), so
the result is `"a\"` and not the doubled `"a\\"` that the trailing
escape-character doubling rule requires. -/
theorem spec_C4_eval :
    CmdQuotingFunctions.weak (String.mk ['a', bslash]) =
      String.mk [dquote, 'a', bslash, dquote] ∧
    CmdQuotingFunctions.weak (String.mk ['a', bslash]) ≠
      String.mk [dquote, 'a', bslash, bslash, dquote] := by decide

/-- C5: evaluation at the failing input `a\nb\nc`. The Cmd `weak` quoter
caret-prefixes only the first line break (its `.replace(/\r?\n/, '^$&')` has
no `g` flag); the second line break stays unescaped. -/
theorem spec_C5_eval :
    CmdQuotingFunctions.weak (String.mk ['a', nlChar, 'b', nlChar, 'c']) =
      String.mk [dquote, 'a', caret, nlChar, 'b', nlChar, 'c', dquote] ∧
    CmdQuotingFunctions.weak (String.mk ['a', nlChar, 'b', nlChar, 'c']) ≠
      String.mk [dquote, 'a', caret, nlChar, 'b', caret, nlChar, 'c', dquote] := by decide

/-- C6 counterexample: on the variable name `?` the quoted key is two
backticks followed by `?`, not a single backtick followed by `?` as the
claim states. -/
theorem spec_C6_cex :
    powershellQuoteKey (String.mk [qmark]) = String.mk [btick, btick, qmark] ∧
    powershellQuoteKey (String.mk [qmark]) ≠ String.mk [btick, qmark] := by decide

/-- The two sequential character replaces of the Powershell key quoting
compose into a single per-character rendering: backtick to four backticks,
question mark to two backticks and a question mark. -/
theorem psKey_comp :
    ∀ (l : List Char),
      replaceChar (fun c => c = qmark) (fun _ => [btick, btick, qmark])
        (replaceChar (fun c => c = btick) (fun _ => [btick, btick, btick, btick]) l) =
      psKeyRender l
  | [] => rfl
  | c :: cs => by
    have ih := psKey_comp cs
    rw [replaceChar, replaceChar_append, ih, psKeyRender]
    congr 1
    by_cases hbt : c = btick
    · subst hbt; decide
    · by_cases hqm : c = qmark
      · subst hqm; decide
      · simp [psKeyCharRender, hbt, hqm, replaceChar]

/-- C6 amended: before interpolation into the brace expansion (for both the
set-variable and remove-variable clauses), every backtick in the name is
replaced by four backticks and every question mark by two backticks followed
by a question mark. -/
theorem spec_C6_amended (k v : String) :
    powershellQuoteKey k = String.mk (psKeyRender k.data) ∧
    psEnvEntry (k, none) =
      "Remove-Item $\x7benv:" ++ String.mk (psKeyRender k.data) ++ "\x7d; " ∧
    psEnvEntry (k, some v) =
      "$\x7benv:" ++ String.mk (psKeyRender k.data) ++ "\x7d=" ++
        PowershellQuotingFunctions.strong v ++ "; " := by
  have h1 : powershellQuoteKey k = String.mk (psKeyRender k.data) := by
    unfold powershellQuoteKey
    rw [psKey_comp]
  exact ⟨h1, by simp [psEnvEntry, h1], by simp [psEnvEntry, h1]⟩

/-- C8: `escapeForShell` returns the value unmodified whenever the requested
quoting mode has no function in the supplied record; in particular the empty
record acts as the identity for every mode, for quoted and for plain-string
arguments alike. -/
theorem spec_C8 (v : String) (q : ShellQuoting) (o : ShellQuotingFunctions) :
    (quotingFunctionFor o q = none → escapeForShell (Sum.inr ⟨v, q⟩) o = v) ∧
    (o.strong = none → escapeForShell (Sum.inl v) o = v) ∧
    escapeForShell (Sum.inr ⟨v, q⟩) emptyQuotingFunctions = v ∧
    escapeForShell (Sum.inl v) emptyQuotingFunctions = v := by
  refine ⟨?_, ?_, ?_, ?_⟩
  · intro h
    simp [escapeForShell, h]
  · intro h
    simp [escapeForShell, quotingFunctionFor, h]
  · cases q <;> rfl
  · rfl

/-- Witness for C8, at the value `a b` with the weak mode and the empty
quoter record. -/
theorem spec_C8_witness :
    (quotingFunctionFor emptyQuotingFunctions ShellQuoting.weak = none ∧
     escapeForShell (Sum.inr ⟨"a b", ShellQuoting.weak⟩) emptyQuotingFunctions = "a b") ∧
    (emptyQuotingFunctions.strong = none ∧
     escapeForShell (Sum.inl "a b") emptyQuotingFunctions = "a b") :=
  ⟨⟨rfl, (spec_C8 "a b" ShellQuoting.weak emptyQuotingFunctions).1 rfl⟩,
   ⟨rfl, (spec_C8 "a b" ShellQuoting.weak emptyQuotingFunctions).2.1 rfl⟩⟩

/-- Prepending the empty string is the identity. -/
theorem str_empty_append (s : String) : "" ++ s = s :=
  String.ext (by rw [String.data_append]; rfl)

/-- Appending the empty string is the identity. -/
theorem str_append_empty (s : String) : s ++ "" = s :=
  String.ext (by rw [String.data_append]; simp)

/-- String concatenation is associative. -/
theorem str_append_assoc (a b c : String) : a ++ b ++ c = a ++ (b ++ c) :=
  String.ext (by simp [String.data_append])

/-- C1: whenever the executable is undefined or matches none of the three
detection patterns, `prepareCommandLine` returns the raw arguments joined by
single spaces, with exactly one warning raised. -/
theorem spec_C1 (exe : Option String) (o : CommandLineOptions)
    (h : exe.elim true (fun e =>
      !testBash e && !testPowershellCI e && !testCmdCI e) = true) :
    prepareCommandLine exe o = (String.intercalate " " o.args, 1) := by
  cases exe with
  | none => rfl
  | some e =>
    simp only [Option.elim, Bool.and_eq_true, Bool.not_eq_true'] at h
    obtain ⟨⟨h1, h2⟩, h3⟩ := h
    by_cases he : e = ""
    · simp [prepareCommandLine, he]
    · simp [prepareCommandLine, he, builderDialect, h1, h2, h3]

/-- Witness for C1, at the executable `/usr/bin/fish`. -/
theorem spec_C1_witness :
    Option.elim (some "/usr/bin/fish") true (fun e =>
      !testBash e && !testPowershellCI e && !testCmdCI e) = true ∧
    prepareCommandLine (some "/usr/bin/fish")
      ⟨"/tmp", ["a b", "c"], some [("X", some "1")]⟩ = ("a b c", 1) :=
  ⟨by decide,
   (spec_C1 (some "/usr/bin/fish") ⟨"/tmp", ["a b", "c"], some [("X", some "1")]⟩
     (by decide)).trans (by decide)⟩

/-- C9 counterexample: with a present-but-empty environment patch the bash
branch still emits the `env ` prefix and the cmd branch still emits the
`cmd /C "` ... `"` wrapper, contradicting the claim that an environment patch
with no entries produces no environment clause. -/
theorem spec_C9_cex :
    (prepareCommandLine (some "bash") ⟨"", ["a"], some []⟩).1 =
      "env " ++ String.mk [squote, 'a', squote] ∧
    (prepareCommandLine (some "cmd") ⟨"", ["a"], some []⟩).1 =
      "cmd /C " ++ String.mk [dquote, dquote, 'a', dquote, dquote] ∧
    (prepareCommandLine (some "bash") ⟨"", ["a"], some []⟩).1 ≠
      String.mk [squote, 'a', squote] := by decide

/-- C9 amended: for every detected dialect, an empty working directory omits
the cd clause and an absent environment patch omits every environment clause;
but an environment patch that is present with zero entries still emits the
bash `env ` prefix and the cmd `cmd /C "` ... `"` wrapper (powershell emits
nothing for it). -/
theorem spec_C9_amended (e : String) (args : List String) :
    (builderDialect e = Dialect.bash →
      (prepareCommandLine (some e) ⟨"", args, none⟩).1 =
        createShellCommandLine (strongArgs args) BashQuotingFunctionsRecord ∧
      (prepareCommandLine (some e) ⟨"", args, some []⟩).1 =
        "env " ++ createShellCommandLine (strongArgs args) BashQuotingFunctionsRecord) ∧
    (builderDialect e = Dialect.powershell →
      (prepareCommandLine (some e) ⟨"", args, none⟩).1 =
        "& " ++ createShellCommandLine (strongArgs args) PowershellQuotingFunctionsRecord ∧
      (prepareCommandLine (some e) ⟨"", args, some []⟩).1 =
        "& " ++ createShellCommandLine (strongArgs args) PowershellQuotingFunctionsRecord) ∧
    (builderDialect e = Dialect.cmd →
      (prepareCommandLine (some e) ⟨"", args, none⟩).1 =
        createShellCommandLine (strongArgs args) CmdQuotingFunctionsRecord ∧
      (prepareCommandLine (some e) ⟨"", args, some []⟩).1 =
        "cmd /C " ++ String.mk [dquote] ++
          createShellCommandLine (strongArgs args) CmdQuotingFunctionsRecord ++
          String.mk [dquote]) := by
  have henv : ("env" ++ " " : String) = "env " := by decide
  refine ⟨?_, ?_, ?_⟩
  · intro h
    have he : e ≠ "" := by
      intro h0
      rw [h0] at h
      exact absurd h (by decide)
    constructor
    · simp [prepareCommandLine, he, h, bashCommand, strongArgs,
        str_empty_append, str_append_empty]
    · simp [prepareCommandLine, he, h, bashCommand, strongArgs,
        show String.join ([] : List String) = "" from rfl,
        str_empty_append, str_append_empty, str_append_assoc]
  · intro h
    have he : e ≠ "" := by
      intro h0
      rw [h0] at h
      exact absurd h (by decide)
    constructor
    · simp [prepareCommandLine, he, h, psCommand, strongArgs,
        str_empty_append, str_append_empty]
    · simp [prepareCommandLine, he, h, psCommand, strongArgs,
        show String.join ([] : List String) = "" from rfl,
        str_empty_append, str_append_empty]
  · intro h
    have he : e ≠ "" := by
      intro h0
      rw [h0] at h
      exact absurd h (by decide)
    constructor
    · simp [prepareCommandLine, he, h, cmdCommand, strongArgs,
        str_empty_append, str_append_empty]
    · simp [prepareCommandLine, he, h, cmdCommand, strongArgs,
        show String.join ([] : List String) = "" from rfl,
        str_empty_append, str_append_empty, str_append_assoc]

/-- Witness for C9, at the executables `bash`, `pwsh` and `cmd`. -/
theorem spec_C9_amended_witness :
    (builderDialect "bash" = Dialect.bash ∧
      (prepareCommandLine (some "bash") ⟨"", ["a"], none⟩).1 =
        createShellCommandLine (strongArgs ["a"]) BashQuotingFunctionsRecord) ∧
    (builderDialect "pwsh" = Dialect.powershell ∧
      (prepareCommandLine (some "pwsh") ⟨"", ["a"], some []⟩).1 =
        "& " ++ createShellCommandLine (strongArgs ["a"]) PowershellQuotingFunctionsRecord) ∧
    (builderDialect "cmd" = Dialect.cmd ∧
      (prepareCommandLine (some "cmd") ⟨"", ["a"], none⟩).1 =
        createShellCommandLine (strongArgs ["a"]) CmdQuotingFunctionsRecord) :=
  ⟨⟨by decide, ((spec_C9_amended "bash" ["a"]).1 (by decide)).1⟩,
   ⟨by decide, ((spec_C9_amended "pwsh" ["a"]).2.1 (by decide)).2⟩,
   ⟨by decide, ((spec_C9_amended "cmd" ["a"]).2.2 (by decide)).1⟩⟩

/-- C10: in the bash dialect, an environment entry with a non-null value is
rendered by strong-quoting the whole string `key=value` as one single-quoted
token (the `=` sits inside the quotes); when neither name nor value contains
a single quote, the token is literally the name, the `=` and the value
between one pair of single quotes. -/
theorem spec_C10 (k v : String) (h : ∀ c ∈ k.data ++ v.data, c ≠ squote) :
    bashEnvEntry (k, some v) = " " ++ BashQuotingFunctions.strong (k ++ "=" ++ v) ∧
    BashQuotingFunctions.strong (k ++ "=" ++ v) =
      String.mk (squote :: (k.data ++ '=' :: v.data) ++ [squote]) := by
  refine ⟨rfl, ?_⟩
  unfold BashQuotingFunctions.strong
  have hd : (k ++ "=" ++ v).data = k.data ++ '=' :: v.data := by
    rw [String.data_append, String.data_append]
    rw [show ("=" : String).data = ['='] from rfl, List.append_assoc]
    rfl
  rw [hd]
  have hall : ∀ c ∈ k.data ++ '=' :: v.data, decide (c = squote) = false := by
    intro c hc
    rcases List.mem_append.1 hc with hc | hc
    · exact decide_eq_false (h c (List.mem_append.2 (Or.inl hc)))
    · rcases List.mem_cons.1 hc with hc | hc
      · subst hc; decide
      · exact decide_eq_false (h c (List.mem_append.2 (Or.inr hc)))
  rw [replaceRuns_id _ _ _ hall]

/-- Witness for C10, at the name `A B|$` and the value `x y`. -/
theorem spec_C10_witness :
    (∀ c ∈ "A B|$".data ++ "x y".data, c ≠ squote) ∧
    (bashEnvEntry ("A B|$", some "x y") =
      " " ++ BashQuotingFunctions.strong ("A B|$" ++ "=" ++ "x y") ∧
     BashQuotingFunctions.strong ("A B|$" ++ "=" ++ "x y") =
       String.mk (squote :: ("A B|$".data ++ '=' :: "x y".data) ++ [squote])) :=
  ⟨by decide, spec_C10 "A B|$" "x y" (by decide)⟩

/-- C7 counterexample: for the variable name `K`, the cmd unset clause is the
whole string `set K="" && ` strong-quoted (so wrapped in double quotes with
the embedded quotes backslash-escaped), not the bare literal `set K="" && `
that the claim states. -/
theorem spec_C7_cex :
    cmdEnvEntry ("K", none) =
      String.mk ([dquote] ++ "set K=".data ++ [bslash, dquote, bslash, dquote] ++
        " && ".data ++ [dquote]) ∧
    cmdEnvEntry ("K", none) ≠ "set K=" ++ String.mk [dquote, dquote] ++ " && " := by
  decide

/-- C7 amended: for a null-valued entry, bash emits ` -u ` followed by the
strong-quoted name inside the env clause, powershell emits
`Remove-Item $\x7benv:k\x7d; ` per variable, and cmd emits
`CmdQuotingFunctions.strong` of the whole clause `set k="" && `, which for a
plain name renders as the clause wrapped in double quotes with its embedded
quotes backslash-escaped. -/
theorem spec_C7_amended (k : String) (h : ∀ c ∈ k.data, isAlnum c = true) :
    bashEnvEntry (k, none) = " -u " ++ String.mk (squote :: k.data ++ [squote]) ∧
    psEnvEntry (k, none) = "Remove-Item $\x7benv:" ++ k ++ "\x7d; " ∧
    cmdEnvEntry (k, none) =
      String.mk (dquote :: ("set ".data ++ (k.data ++
        ('=' :: bslash :: dquote :: bslash :: dquote :: " && ".data))) ++ [dquote]) := by
  have hf := fun c hc => alnum_char_facts c (h c hc)
  have hsqb : ∀ c ∈ k.data, decide (c = squote) = false :=
    fun c hc => decide_eq_false (hf c hc).2.2.2.2.1
  have hdqb : ∀ c ∈ k.data, decide (c = dquote) = false :=
    fun c hc => decide_eq_false (hf c hc).2.2.2.2.2.1
  have hbtb : ∀ c ∈ k.data, decide (c = btick) = false :=
    fun c hc => decide_eq_false (hf c hc).2.2.2.2.2.2.1
  have hqmb : ∀ c ∈ k.data, decide (c = qmark) = false :=
    fun c hc => decide_eq_false (hf c hc).2.2.2.2.2.2.2.1
  have hpcb : ∀ c ∈ k.data, decide (c = percent) = false :=
    fun c hc => decide_eq_false (hf c hc).2.2.2.2.2.2.2.2.1
  have hnl : ∀ c ∈ k.data, c ≠ nlChar :=
    fun c hc => (hf c hc).2.2.2.2.2.2.2.2.2.1
  have hstrong : BashQuotingFunctions.strong k = String.mk (squote :: k.data ++ [squote]) := by
    unfold BashQuotingFunctions.strong
    rw [replaceRuns_id _ _ _ hsqb]
  have hbashPart : bashEnvEntry (k, none) =
      " -u " ++ String.mk (squote :: k.data ++ [squote]) := by
    simp [bashEnvEntry, hstrong]
  have hkey : powershellQuoteKey k = k := by
    unfold powershellQuoteKey
    rw [replaceChar_id _ _ _ hbtb, replaceChar_id _ _ _ hqmb]
  have hpsPart : psEnvEntry (k, none) = "Remove-Item $\x7benv:" ++ k ++ "\x7d; " := by
    simp [psEnvEntry, hkey]
  have hdata : ("set " ++ k ++ "=" ++ String.mk [dquote, dquote] ++ " && ").data =
      "set ".data ++ (k.data ++ ('=' :: dquote :: dquote :: " && ".data)) := by
    simp [String.data_append, show ("=" : String).data = ['='] from rfl,
      List.append_assoc]
  have hweakdata :
      replaceChar (fun c => c = dquote) (fun _ => [bslash, dquote])
        (("set " ++ k ++ "=" ++ String.mk [dquote, dquote] ++ " && ").data) =
      "set ".data ++ (k.data ++
        ('=' :: bslash :: dquote :: bslash :: dquote :: " && ".data)) := by
    rw [hdata, replaceChar_append, replaceChar_append]
    rw [replaceChar_id _ _ _ hdqb]
    rw [show replaceChar (fun c => c = dquote) (fun _ => [bslash, dquote]) "set ".data =
      "set ".data from by decide]
    rw [show replaceChar (fun c => c = dquote) (fun _ => [bslash, dquote])
      ('=' :: dquote :: dquote :: " && ".data) =
      '=' :: bslash :: dquote :: bslash :: dquote :: " && ".data from by decide]
  have htrail :
      replaceTrailing bslash [bslash]
        ("set ".data ++ (k.data ++
          ('=' :: bslash :: dquote :: bslash :: dquote :: " && ".data))) =
      "set ".data ++ (k.data ++
        ('=' :: bslash :: dquote :: bslash :: dquote :: " && ".data)) := by
    have hlast :
        ("set ".data ++ (k.data ++
          ('=' :: bslash :: dquote :: bslash :: dquote :: " && ".data))).getLast? =
        some ' ' := by
      rw [List.getLast?_append, List.getLast?_append]
      rw [show ('=' :: bslash :: dquote :: bslash :: dquote :: " && ".data).getLast? =
        some ' ' from by decide]
      rfl
    unfold replaceTrailing
    rw [hlast, if_neg (by decide)]
  have hnonl : ∀ c ∈ dquote :: ("set ".data ++ (k.data ++
      ('=' :: bslash :: dquote :: bslash :: dquote :: " && ".data))) ++ [dquote],
      c ≠ nlChar := by
    have hset : ∀ c ∈ "set ".data, c ≠ nlChar := by decide
    have htl : ∀ c ∈ ('=' :: bslash :: dquote :: bslash :: dquote :: " && ".data),
        c ≠ nlChar := by decide
    intro c hc
    rcases List.mem_cons.1 hc with rfl | hc
    · decide
    rcases List.mem_append.1 hc with hc | hc
    · rcases List.mem_append.1 hc with hc | hc
      · exact hset c hc
      rcases List.mem_append.1 hc with hc | hc
      · exact hnl c hc
      · exact htl c hc
    · rw [List.mem_singleton.1 hc]; decide
  have hweak :
      CmdQuotingFunctions.weak ("set " ++ k ++ "=" ++ String.mk [dquote, dquote] ++ " && ") =
      String.mk (dquote :: ("set ".data ++ (k.data ++
        ('=' :: bslash :: dquote :: bslash :: dquote :: " && ".data))) ++ [dquote]) := by
    unfold CmdQuotingFunctions.weak
    rw [hweakdata, htrail, escapeFirstNewline_id _ hnonl]
  have hnopct : ∀ c ∈ dquote :: ("set ".data ++ (k.data ++
      ('=' :: bslash :: dquote :: bslash :: dquote :: " && ".data))) ++ [dquote],
      decide (c = percent) = false := by
    have hset : ∀ c ∈ "set ".data, decide (c = percent) = false := by decide
    have htl : ∀ c ∈ ('=' :: bslash :: dquote :: bslash :: dquote :: " && ".data),
        decide (c = percent) = false := by decide
    intro c hc
    rcases List.mem_cons.1 hc with rfl | hc
    · decide
    rcases List.mem_append.1 hc with hc | hc
    · rcases List.mem_append.1 hc with hc | hc
      · exact hset c hc
      rcases List.mem_append.1 hc with hc | hc
      · exact hpcb c hc
      · exact htl c hc
    · rw [List.mem_singleton.1 hc]; decide
  have hcmdPart : cmdEnvEntry (k, none) =
      String.mk (dquote :: ("set ".data ++ (k.data ++
        ('=' :: bslash :: dquote :: bslash :: dquote :: " && ".data))) ++ [dquote]) := by
    simp only [cmdEnvEntry]
    unfold CmdQuotingFunctions.strong
    rw [hweak]
    rw [show (String.mk (dquote :: ("set ".data ++ (k.data ++
      ('=' :: bslash :: dquote :: bslash :: dquote :: " && ".data))) ++ [dquote])).data =
      dquote :: ("set ".data ++ (k.data ++
        ('=' :: bslash :: dquote :: bslash :: dquote :: " && ".data))) ++ [dquote] from rfl]
    rw [replaceChar_id _ _ _ hnopct]
  exact ⟨hbashPart, hpsPart, hcmdPart⟩

/-- Witness for C7, at the variable name `K`. -/
theorem spec_C7_witness :
    (∀ c ∈ "K".data, isAlnum c = true) ∧
    (bashEnvEntry ("K", none) = " -u " ++ String.mk (squote :: "K".data ++ [squote]) ∧
     psEnvEntry ("K", none) = "Remove-Item $\x7benv:" ++ "K" ++ "\x7d; " ∧
     cmdEnvEntry ("K", none) =
       String.mk (dquote :: ("set ".data ++ ("K".data ++
         ('=' :: bslash :: dquote :: bslash :: dquote :: " && ".data))) ++ [dquote])) :=
  ⟨by decide, spec_C7_amended "K" (by decide)⟩

/-- Two patterns that both match the front of the same list are pointwise
compatible on their literal slots. -/
theorem matchesPat_compat :
    ∀ (p q : List (Option Char)) (l : List Char),
      matchesPat p l = true → matchesPat q l = true → compatPats p q = true
  | [], _, _, _, _ => rfl
  | _ :: _, [], _, _, _ => rfl
  | p0 :: ps, q0 :: qs, l, hp, hq => by
    cases l with
    | nil => simp [matchesPat] at hp
    | cons c cs =>
      simp only [matchesPat, Bool.and_eq_true] at hp hq
      have ih := matchesPat_compat ps qs cs hp.2 hq.2
      cases p0 with
      | none => simp [compatPats, ih]
      | some a =>
        cases q0 with
        | none => simp [compatPats, ih]
        | some b =>
          have ha : a = c := of_decide_eq_true hp.1
          have hb : b = c := of_decide_eq_true hq.1
          subst ha
          subst hb
          simp [compatPats, ih]

/-- ASCII lowering never moves a character into or out of the set of line
terminators, so the regex wildcard class is stable under it. -/
theorem isRegexDot_toLower (c : Char) :
    isRegexDot (Char.toLower c) = isRegexDot c := by
  by_cases hr : c.toNat ≥ 65 ∧ c.toNat ≤ 90
  · have key : ∀ n, 65 ≤ n → n ≤ 90 →
        isRegexDot (Char.toLower (Char.ofNat n)) = isRegexDot (Char.ofNat n) := by
      intro n hn1 hn2
      interval_cases n <;> decide
    have := key c.toNat hr.1 hr.2
    rwa [Char.ofNat_toNat] at this
  · simp only [Char.toLower]
    rw [if_neg hr]

/-- A pattern match survives ASCII lowering of both pattern literals and
subject. -/
theorem matchesPat_lower :
    ∀ (p : List (Option Char)) (l : List Char), matchesPat p l = true →
      matchesPat (p.map (Option.map Char.toLower)) (l.map Char.toLower) = true
  | [], _, _ => rfl
  | p0 :: ps, l, hp => by
    cases l with
    | nil => simp [matchesPat] at hp
    | cons c cs =>
      simp only [matchesPat, Bool.and_eq_true] at hp
      have ih := matchesPat_lower ps cs hp.2
      cases p0 with
      | none =>
        have hdot : isRegexDot c = true := hp.1
        simp [matchesPat, ih, isRegexDot_toLower, hdot]
      | some a =>
        have ha : a = c := of_decide_eq_true hp.1
        subst ha
        simp [matchesPat, ih]

/-- A reversed-suffix pattern match on a string survives ASCII lowering of
the string. -/
theorem matchesPat_lower_of (s : String) (p : List (Option Char))
    (h : matchesPat p s.data.reverse = true) :
    matchesPat (p.map (Option.map Char.toLower)) ((lowerData s).reverse) = true := by
  have hm := matchesPat_lower p s.data.reverse h
  rwa [List.map_reverse, show s.data.map Char.toLower = lowerData s from rfl] at hm

/-- An executable matching the bash pattern cannot also match the
case-insensitive powershell pattern. -/
theorem not_ps_of_bash (s : String) (h : testBash s = true) :
    testPowershellCI s = false := by
  rw [Bool.eq_false_iff]
  intro hps
  unfold testBash optDotExe at h
  unfold testPowershellCI optDotExe at hps
  simp only [Bool.or_eq_true] at h hps
  rcases h with h | h <;>
    rcases hps with ((hp | hp) | (hp | hp)) | (hp | hp) <;>
      exact absurd (matchesPat_compat _ _ _ (matchesPat_lower_of s _ h) hp)
        (by decide)

/-- An executable matching the bash pattern cannot also match the
case-insensitive cmd pattern. -/
theorem not_cmdCI_of_bash (s : String) (h : testBash s = true) :
    testCmdCI s = false := by
  rw [Bool.eq_false_iff]
  intro hcm
  unfold testBash optDotExe at h
  unfold testCmdCI optDotExe at hcm
  simp only [Bool.or_eq_true] at h hcm
  rcases h with h | h <;>
    rcases hcm with hc | hc <;>
      exact absurd (matchesPat_compat _ _ _ (matchesPat_lower_of s _ h) hc)
        (by decide)

/-- An executable matching the case-insensitive powershell pattern cannot
also match the case-insensitive cmd pattern. -/
theorem not_cmdCI_of_ps (s : String) (h : testPowershellCI s = true) :
    testCmdCI s = false := by
  rw [Bool.eq_false_iff]
  intro hcm
  unfold testPowershellCI optDotExe at h
  unfold testCmdCI optDotExe at hcm
  simp only [Bool.or_eq_true] at h hcm
  rcases h with ((hp | hp) | (hp | hp)) | (hp | hp) <;>
    rcases hcm with hc | hc <;>
      exact absurd (matchesPat_compat _ _ _ hp hc) (by decide)

/-- C3 counterexample: the executable `CMD.EXE` matches `cmd(.exe)?$`
case-insensitively, yet the task runner's classification (whose cmd regex has
no `i` flag) does not classify it as cmd. -/
theorem spec_C3_cex :
    testCmdCI "CMD.EXE" = true ∧
    taskRunnerShellDialect "CMD.EXE" ≠ TaskDialect.cmd := by decide

/-- C3 amended: the claimed classification is exact at the command-line
builder (each dialect holds if and only if its pattern matches); the task
runner instead matches bash identically, matches cmd only case-sensitively
(and before its powershell test), and classifies as powershell any remaining
command in which the case-sensitive substring `ps`, `pwsh` or `powershell`
occurs anywhere. -/
theorem spec_C3_amended (s : String) :
    (builderDialect s = Dialect.bash ↔ testBash s = true) ∧
    (builderDialect s = Dialect.powershell ↔ testPowershellCI s = true) ∧
    (builderDialect s = Dialect.cmd ↔ testCmdCI s = true) ∧
    (taskRunnerShellDialect s = TaskDialect.bash ↔ testBash s = true) ∧
    (taskRunnerShellDialect s = TaskDialect.cmd ↔
      (testBash s = false ∧ testCmdCS s = true)) ∧
    (taskRunnerShellDialect s = TaskDialect.powershell ↔
      (testBash s = false ∧ testCmdCS s = false ∧ testPsSub s = true)) := by
  refine ⟨?_, ?_, ?_, ?_, ?_, ?_⟩
  · unfold builderDialect
    by_cases hb : testBash s <;> simp [hb]
    by_cases hps : testPowershellCI s <;> by_cases hcm : testCmdCI s <;>
      simp [hps, hcm]
  · unfold builderDialect
    by_cases hb : testBash s
    · simp [hb, not_ps_of_bash s hb]
    · by_cases hps : testPowershellCI s
      · simp [hb, hps]
      · by_cases hcm : testCmdCI s <;> simp [hb, hps, hcm]
  · unfold builderDialect
    by_cases hb : testBash s
    · simp [hb, not_cmdCI_of_bash s hb]
    · by_cases hps : testPowershellCI s
      · simp [hb, hps, not_cmdCI_of_ps s hps]
      · by_cases hcm : testCmdCI s <;> simp [hb, hps, hcm]
  · unfold taskRunnerShellDialect
    by_cases hb : testBash s <;> simp [hb]
    by_cases hcs : testCmdCS s <;> by_cases hsub : testPsSub s <;>
      simp [hcs, hsub]
  · unfold taskRunnerShellDialect
    by_cases hb : testBash s
    · simp [hb]
    · by_cases hcs : testCmdCS s
      · simp [hb, hcs]
      · by_cases hsub : testPsSub s <;> simp [hb, hcs, hsub]
  · unfold taskRunnerShellDialect
    by_cases hb : testBash s
    · simp [hb]
    · by_cases hcs : testCmdCS s
      · simp [hb, hcs]
      · by_cases hsub : testPsSub s <;> simp [hb, hcs, hsub]
